import Mathlib

/-!
Verification of the user-level cooperative threading runtime `uthreads.c`
(thread table, round-robin scheduler, mutex, semaphore, condition variable,
bounded channel).  The definitions below are a shallow embedding of the C
source: each C function is translated into a Lean function on explicit state;
the fixed-size C arrays of waiting tids together with their counts are
rendered as lists, the thread table as a function from slot index to thread
control block.  Machine integers stay well within 32-bit range in every
scenario considered, so they are modelled by `Int`/`Nat` directly.
-/

/-! ## Thread states and the thread control block (uthreads.h) -/

/-- The five thread states `T_UNUSED .. T_ZOMBIE` of uthreads.h. -/
inductive TState where
  | unused
  | runnable
  | running
  | sleeping
  | zombie
deriving DecidableEq

/-- Thread control block: the fields of `struct thread` that the runtime
logic reads and writes (`stack`, `sp`, `start_routine`, `arg`, `retval` only
feed the context switch and are not part of the scheduling logic). -/
structure TCB where
  tid : Int
  state : TState
  joined_tid : Int
deriving DecidableEq

/-- `MAX_THREADS` from uthreads.h. -/
def MAX_THREADS : Nat := 16

/-- The global runtime state: the thread table `threads[MAX_THREADS]`,
the index of `current_thread`, and `next_tid`. -/
structure RTState where
  threads : Nat → TCB
  current : Nat
  next_tid : Int

/-- Write a new state into slot `i` of the thread table
(`threads[i].state = st`). -/
def setState (th : Nat → TCB) (i : Nat) (st : TState) : Nat → TCB :=
  fun j => if j = i then { th j with state := st } else th j

/-- Write a new `joined_tid` into slot `i` of the thread table. -/
def setJoined (th : Nat → TCB) (i : Nat) (t : Int) : Nat → TCB :=
  fun j => if j = i then { th j with joined_tid := t } else th j

/-- `thread_init` (uthreads.c:19-37): all slots cleared to `T_UNUSED` with
`tid = 0` and `joined_tid = -1`; slot 0 becomes the bootstrap thread,
`tid = 0`, state `T_RUNNING`; `current_thread = &threads[0]`; `next_tid = 1`. -/
def thread_init : RTState :=
  { threads := fun i =>
      if i = 0 then { tid := 0, state := TState.running, joined_tid := -1 }
      else { tid := 0, state := TState.unused, joined_tid := -1 },
    current := 0,
    next_tid := 1 }

/-! ## Scheduler (uthreads.c:172-224) -/

/-- One linear scan of the thread table: starting at index `i`, examine `n`
consecutive slots and return the first one whose state is `T_RUNNABLE`.
This is the loop shape of both passes of `find_runnable_thread`. -/
def scanRunnable (th : Nat → TCB) (i : Nat) : Nat → Option Nat
  | 0 => none
  | n + 1 =>
    if (th i).state = TState.runnable then some i
    else scanRunnable th (i + 1) n

/-- `find_runnable_thread` (uthreads.c:199-224): first pass from
`start_idx = (current+1) % MAX_THREADS` to the end of the array, second pass
from 0 to `start_idx`, finally the check whether the current thread itself is
runnable. -/
def find_runnable_thread (th : Nat → TCB) (cur : Nat) : Option Nat :=
  let start_idx := (cur + 1) % MAX_THREADS
  match scanRunnable th start_idx (MAX_THREADS - start_idx) with
  | some i => some i
  | none =>
    match scanRunnable th 0 start_idx with
    | some i => some i
    | none =>
      if (th cur).state = TState.runnable then some cur else none

/-- `thread_schedule` (uthreads.c:172-196): pick the next runnable thread; if
none exists return with the state untouched; otherwise demote the old thread
from RUNNING to RUNNABLE (states SLEEPING/ZOMBIE set by the caller are kept),
promote the chosen thread to RUNNING and make it current.  The actual
register/stack switch `thread_switch` moves no runtime-visible state. -/
def thread_schedule (s : RTState) : RTState :=
  match find_runnable_thread s.threads s.current with
  | none => s
  | some nxt =>
    let t1 :=
      if (s.threads s.current).state = TState.running
      then setState s.threads s.current TState.runnable
      else s.threads
    { s with threads := setState t1 nxt TState.running, current := nxt }

/-- Number of slots of the thread table holding a RUNNING thread. -/
def runningCount (th : Nat → TCB) : Nat :=
  (List.range MAX_THREADS).countP (fun i => decide ((th i).state = TState.running))

/-! ## The dequeue-and-wake helper

`mutex_unlock` (uthreads.c:277-283), `sem_post` (uthreads.c:336-343),
`cond_signal` (uthreads.c:387-393) and `cond_broadcast` (uthreads.c:407-413)
all wake a dequeued tid with the identical loop: scan the thread table for
the first slot whose `tid` matches, set it `T_RUNNABLE`, `break`; if no slot
matches, do nothing.  Note that the loop does not inspect the slot's state. -/

/-- The first slot of the thread table whose `tid` field equals `t`
(the search loop `for i < MAX_THREADS: if threads[i].tid == wake_tid`). -/
def findSlotWithTid (th : Nat → TCB) (t : Int) : Option Nat :=
  (List.range MAX_THREADS).find? (fun i => decide ((th i).tid = t))

/-- Wake the thread with tid `t`: mark the first slot carrying `t` as
`T_RUNNABLE`; if no slot carries `t`, leave the table unchanged. -/
def wakeTid (th : Nat → TCB) (t : Int) : Nat → TCB :=
  match findSlotWithTid th t with
  | some i => setState th i TState.runnable
  | none => th

/-! ## Mutex (uthreads.c:228-289) -/

/-- `struct mutex`: `locked`, `owner_tid`, and the bounded FIFO
`wait_queue[MAX_THREADS]` with `wait_count`, rendered as a list whose length
is `wait_count`. -/
structure Mutex where
  locked : Bool
  owner_tid : Int
  wait_queue : List Int
deriving DecidableEq

/-- `mutex_init` (uthreads.c:228-235): unlocked, no owner, empty queue. -/
def mutex_init : Mutex :=
  { locked := false, owner_tid := -1, wait_queue := [] }

/-- The effect of one iteration of the `mutex_lock` loop (uthreads.c:237-257)
on the mutex, for a caller with tid `tid`: if the mutex is held, append the
caller to the wait queue (`wait_queue[wait_count++] = tid`); otherwise take
the lock (`locked = 1; owner_tid = tid`). -/
def mutex_lock_try (m : Mutex) (tid : Int) : Mutex :=
  if m.locked then { m with wait_queue := m.wait_queue ++ [tid] }
  else { m with locked := true, owner_tid := tid }

/-- One iteration of `mutex_lock` on the full runtime state: the mutex effect
of `mutex_lock_try`, and, on the contended path, the caller blocks
(`current_thread->state = T_SLEEPING`) and enters `thread_schedule`. -/
def mutex_lock_step (m : Mutex) (s : RTState) : Mutex × RTState :=
  (mutex_lock_try m (s.threads s.current).tid,
   if m.locked
   then thread_schedule { s with threads := setState s.threads s.current TState.sleeping }
   else s)

/-- `mutex_unlock` (uthreads.c:259-289) called by a thread with tid `tid`:
a no-op unless the caller owns the mutex; otherwise dequeue the head waiter
(if any) and wake it, then release (`locked = 0; owner_tid = -1`). -/
def mutex_unlock (m : Mutex) (tid : Int) (th : Nat → TCB) : Mutex × (Nat → TCB) :=
  if m.owner_tid ≠ tid then (m, th)
  else
    match m.wait_queue with
    | [] => ({ m with locked := false, owner_tid := -1 }, th)
    | wake :: rest =>
      ({ m with locked := false, owner_tid := -1, wait_queue := rest },
       wakeTid th wake)

/-- The invariant of spec §8 item 3: `locked ⇔ owner_tid ≥ 0` and no tid in
the wait queue equals `owner_tid`. -/
def mutexInv (m : Mutex) : Prop :=
  (m.locked = true ↔ 0 ≤ m.owner_tid) ∧ ∀ t ∈ m.wait_queue, t ≠ m.owner_tid

instance (m : Mutex) : Decidable (mutexInv m) := by
  unfold mutexInv; infer_instance

/-! ## Semaphore (uthreads.c:293-344) -/

/-- `struct semaphore`: signed `count` and the FIFO of waiting tids. -/
structure Sem where
  count : Int
  wait_queue : List Int
deriving DecidableEq

/-- `sem_init` (uthreads.c:293-299). -/
def sem_init (v : Int) : Sem :=
  { count := v, wait_queue := [] }

/-- The atomic entry segment of `sem_wait` (uthreads.c:301-319): decrement
`count`; if the result is negative, enqueue the caller (who then blocks; the
loop body ends in `break`, so waking performs no further semaphore update). -/
def sem_wait_entry (s : Sem) (tid : Int) : Sem :=
  let s1 : Sem := { s with count := s.count - 1 }
  if s1.count < 0 then { s1 with wait_queue := s1.wait_queue ++ [tid] } else s1

/-- `sem_post` (uthreads.c:321-344): increment `count`; if any tid is queued,
dequeue the head and wake it. -/
def sem_post (s : Sem) (th : Nat → TCB) : Sem × (Nat → TCB) :=
  let s1 : Sem := { s with count := s.count + 1 }
  match s1.wait_queue with
  | [] => (s1, th)
  | wake :: rest => ({ s1 with wait_queue := rest }, wakeTid th wake)

/-- The invariant of spec §8 item 5: the number of queued waiters equals
`max(0, -count)`. -/
def semInv (s : Sem) : Prop :=
  (s.wait_queue.length : Int) = max 0 (-s.count)

instance (s : Sem) : Decidable (semInv s) := by
  unfold semInv; infer_instance

/-! ## Condition variable (uthreads.c:348-415) -/

/-- `struct cond`: just the FIFO of waiting tids. -/
structure Cond where
  wait_queue : List Int
deriving DecidableEq

/-- `cond_init` (uthreads.c:348-353). -/
def cond_init : Cond := { wait_queue := [] }

/-- `cond_signal` (uthreads.c:372-394): if no thread waits, do nothing;
otherwise dequeue the head tid and wake it. -/
def cond_signal (c : Cond) (th : Nat → TCB) : Cond × (Nat → TCB) :=
  match c.wait_queue with
  | [] => (c, th)
  | wake :: rest => ({ wait_queue := rest }, wakeTid th wake)

/-- The `while (c->wait_count > 0)` loop of `cond_broadcast`
(uthreads.c:396-415): repeatedly dequeue the head tid and wake it. -/
def broadcastLoop (th : Nat → TCB) : List Int → Nat → TCB
  | [] => th
  | wake :: rest => broadcastLoop (wakeTid th wake) rest

/-- `cond_broadcast` (uthreads.c:396-415): drain the whole queue, waking each
dequeued tid in turn. -/
def cond_broadcast (c : Cond) (th : Nat → TCB) : Cond × (Nat → TCB) :=
  ({ wait_queue := [] }, broadcastLoop th c.wait_queue)

/-- `cond_signal` iterated `n` times (for relating `cond_broadcast` to a
FIFO sequence of single signals). -/
def signalIter : Nat → Cond × (Nat → TCB) → Cond × (Nat → TCB)
  | 0, p => p
  | n + 1, p => signalIter n (cond_signal p.1 p.2)

/-! ## Thread join (uthreads.c:97-133) -/

/-- The lookup loop of `thread_join`: the first slot whose `tid` matches and
whose state is not `T_UNUSED`. -/
def joinLookup (th : Nat → TCB) (tid : Int) : Option Nat :=
  (List.range MAX_THREADS).find?
    (fun i => decide ((th i).tid = tid ∧ (th i).state ≠ TState.unused))

/-- The thread table just before `thread_join`'s waiting loop enters the
scheduler: the caller has recorded `joined_tid = tid` and blocked itself
(`current_thread->state = T_SLEEPING`). -/
def joinBlockedTable (s : RTState) (tid : Int) : Nat → TCB :=
  setState (setJoined s.threads s.current tid) s.current TState.sleeping

/-- The entry of `thread_join` up to its first suspension: `none` models the
not-found path (`return 0`, a null retval); otherwise, if the target is
already a zombie the waiting loop is skipped (the caller proceeds to reap),
and if not, the first loop iteration records `joined_tid = tid` on the
caller, blocks it (`T_SLEEPING`) and enters the scheduler. -/
def thread_join_entry (s : RTState) (tid : Int) : Option RTState :=
  match joinLookup s.threads tid with
  | none => none
  | some ti =>
    if (s.threads ti).state = TState.zombie then some s
    else
      some (thread_schedule { s with threads := joinBlockedTable s tid })

/-! ## Bounded channel (uthreads.c:417-517) -/

/-- `struct channel` without its embedded `lock`/`not_empty`/`not_full`:
in the sequential model below the mutex is always free when a channel
operation starts, and blocking on either condition variable is rendered by
the channel step functions returning `none`.  Buffered values (`void *` in
the source) are modelled as integers. -/
structure Channel where
  buffer : Nat → Int
  capacity : Nat
  count : Nat
  read_pos : Nat
  write_pos : Nat
  closed : Bool

/-- `channel_create` (uthreads.c:422-447) exactly as the source has it: both
`malloc` calls are commented out, so `ch` is the null pointer, the
`if (ch == 0)` check fires, and the function returns null for every capacity.
The initialization code below the null checks is unreachable. -/
def channel_create (capacity : Nat) : Option Channel :=
  let ch_alloc : Bool := false
  if ch_alloc = false then none
  else
    let buffer_alloc : Bool := false
    if buffer_alloc = false then none
    else
      some { buffer := fun _ => 0, capacity := capacity, count := 0,
             read_pos := 0, write_pos := 0, closed := false }

/-- `channel_send` (uthreads.c:449-479) as a sequential step: `some (r, ch')`
when the call completes immediately with result `r` and post-state `ch'`;
`none` when it would block on `not_full` (buffer full and not closed).
If the channel is closed the call returns `-1` with the channel untouched;
otherwise the value is written at `write_pos`, which advances modulo the
capacity, and `count` is incremented. -/
def channel_send (ch : Channel) (data : Int) : Option (Int × Channel) :=
  if ch.closed then some (-1, ch)
  else if ch.count = ch.capacity then none
  else
    some (0,
      { ch with
        buffer := fun j => if j = ch.write_pos then data else ch.buffer j,
        write_pos := (ch.write_pos + 1) % ch.capacity,
        count := ch.count + 1 })

/-- `channel_recv` (uthreads.c:481-505) as a sequential step: `some (r, v, ch')`
when the call completes immediately (`v` is the value written through the out
pointer, `none` when the out pointer is left untouched); the step is `none`
when the call would block on `not_empty` (buffer empty and not closed).
With an empty buffer on a closed channel the call returns `-1`; otherwise the
value at `read_pos` is delivered, `read_pos` advances modulo the capacity and
`count` is decremented. -/
def channel_recv (ch : Channel) : Option (Int × Option Int × Channel) :=
  if ch.count = 0 then
    if ch.closed then some (-1, none, ch) else none
  else
    some (0, some (ch.buffer ch.read_pos),
      { ch with
        read_pos := (ch.read_pos + 1) % ch.capacity,
        count := ch.count - 1 })

/-- `channel_close` (uthreads.c:507-517) restricted to the channel fields:
set `closed`; the two broadcasts drain the (here empty) condition queues. -/
def channel_close (ch : Channel) : Channel :=
  { ch with closed := true }

/-- The items currently buffered, in FIFO order: `count` values starting at
`read_pos` and wrapping modulo the capacity. -/
def chanItems (ch : Channel) : List Int :=
  (List.range ch.count).map (fun k => ch.buffer ((ch.read_pos + k) % ch.capacity))

/-- Repeated `channel_recv`: perform `n` receives, collecting the delivered
values, and stop early if a receive does not deliver a value. -/
def drainRecv : Nat → Channel → List Int × Channel
  | 0, ch => ([], ch)
  | n + 1, ch =>
    match channel_recv ch with
    | some (_, some v, ch') =>
      let p := drainRecv n ch'
      (v :: p.1, p.2)
    | _ => ([], ch)

/-- A concrete closed channel of capacity 3 holding the two values 10, 20
(at ring positions 1 and 2), used to exercise the close-monotonicity
theorem on explicit input. -/
def sampleClosedChannel : Channel :=
  { buffer := fun j => if j = 1 then 10 else if j = 2 then 20 else 0,
    capacity := 3, count := 2, read_pos := 1, write_pos := 0, closed := true }

/-! ## Spec-side characterization of round-robin selection

For the refinement claim about the scheduler, the selection order described
by the spec — "starting from the slot immediately after `current` (modulo
`MAX_THREADS`), scanning all slots once; the first RUNNABLE slot wins; if no
other RUNNABLE slot exists but `current` itself is RUNNABLE, `current`
continues" — is rendered as the first runnable slot of the list of all slot
indices in that order (`current` itself being the final element). -/

/-- All slot indices in round-robin order starting immediately after `cur`;
the last element (offset `MAX_THREADS`) is `cur` itself. -/
def rrOrder (cur : Nat) : List Nat :=
  (List.range MAX_THREADS).map (fun k => (cur + 1 + k) % MAX_THREADS)

/-- The first slot in the given scan order holding a RUNNABLE thread. -/
def firstRunnableIn (th : Nat → TCB) (l : List Nat) : Option Nat :=
  l.find? (fun i => decide ((th i).state = TState.runnable))

/-! ## Theorems -/

/-- C1 (code bug witness): `channel_create` in the source has both `malloc`
calls commented out (`ch = 0`), so the very first null check fires and the
function returns null for capacity 5 — indeed for every capacity — although
the spec describes allocation plus field initialization, with null reserved
for allocation failure. -/
theorem channel_create_always_null : channel_create 5 = none := rfl

/-- C7: `mutex_unlock` called by a thread whose tid differs from
`owner_tid` is a no-op: the mutex (locked flag, owner, wait queue) and the
whole thread table are returned unchanged. -/
theorem mutex_unlock_nonowner_noop (m : Mutex) (tid : Int) (th : Nat → TCB)
    (h : m.owner_tid ≠ tid) :
    mutex_unlock m tid th = (m, th) := by
  unfold mutex_unlock
  rw [if_pos h]

theorem mutex_unlock_nonowner_noop_witness :
    mutex_unlock { locked := true, owner_tid := 3, wait_queue := [5] } 7
        thread_init.threads
      = ({ locked := true, owner_tid := 3, wait_queue := [5] }, thread_init.threads) :=
  mutex_unlock_nonowner_noop _ 7 _ (by decide)

/-- Each scan pass of `find_runnable_thread` is a `find?` over the list of
the `n` consecutive indices it visits. -/
theorem scanRunnable_eq_find? (th : Nat → TCB) :
    ∀ n i, scanRunnable th i n
      = ((List.range n).map (fun k => i + k)).find?
          (fun j => decide ((th j).state = TState.runnable)) := by
  intro n
  induction n with
  | zero => intro i; simp [scanRunnable]
  | succ n ih =>
    intro i
    rw [List.range_succ_eq_map, List.map_cons, List.map_map]
    simp only [Nat.add_zero]
    have hf : ((fun k => i + k) ∘ Nat.succ) = fun k => i + 1 + k := by
      funext k
      simp only [Function.comp_apply]
      omega
    rw [hf]
    by_cases hp : (th i).state = TState.runnable
    · rw [List.find?_cons_of_pos _ (by simpa using hp)]
      simp [scanRunnable, hp]
    · rw [List.find?_cons_of_neg _ (by simpa using hp)]
      simp only [scanRunnable, hp, if_false]
      exact ih (i + 1)

/-- The two scan passes of `find_runnable_thread`, concatenated, visit the
slots in exactly the round-robin order of the spec. -/
theorem rrOrder_eq_append (cur : Nat) (h : cur < MAX_THREADS) :
    rrOrder cur
      = ((List.range (MAX_THREADS - (cur + 1) % MAX_THREADS)).map
            (fun k => (cur + 1) % MAX_THREADS + k))
        ++ ((List.range ((cur + 1) % MAX_THREADS)).map (fun k => 0 + k)) := by
  simp only [MAX_THREADS] at h
  interval_cases cur <;> decide

/-- `cur` itself is the last slot visited in round-robin order. -/
theorem mem_rrOrder_self (cur : Nat) (h : cur < MAX_THREADS) :
    cur ∈ rrOrder cur := by
  simp only [MAX_THREADS] at h
  refine List.mem_map.mpr ⟨15, ?_, ?_⟩
  · simp [MAX_THREADS]
  · simp only [MAX_THREADS]
    omega

/-- The source's `find_runnable_thread` realizes the spec's selection rule:
it returns the first RUNNABLE slot in round-robin order starting immediately
after `cur` (with `cur` itself examined last). -/
theorem find_runnable_eq_rr (th : Nat → TCB) (cur : Nat) (h : cur < MAX_THREADS) :
    find_runnable_thread th cur = firstRunnableIn th (rrOrder cur) := by
  simp only [find_runnable_thread, firstRunnableIn]
  rw [scanRunnable_eq_find?, scanRunnable_eq_find?, rrOrder_eq_append cur h,
    List.find?_append]
  cases h1 : (((List.range (MAX_THREADS - (cur + 1) % MAX_THREADS)).map
      (fun k => (cur + 1) % MAX_THREADS + k)).find?
      (fun j => decide ((th j).state = TState.runnable))) with
  | some i => simp
  | none =>
    cases h2 : (((List.range ((cur + 1) % MAX_THREADS)).map (fun k => 0 + k)).find?
        (fun j => decide ((th j).state = TState.runnable))) with
    | some i => simp [h2]
    | none =>
      simp only [h2, Option.or_none]
      have hcur : cur ∈
          ((List.range (MAX_THREADS - (cur + 1) % MAX_THREADS)).map
              (fun k => (cur + 1) % MAX_THREADS + k))
            ++ ((List.range ((cur + 1) % MAX_THREADS)).map (fun k => 0 + k)) := by
        rw [← rrOrder_eq_append cur h]
        exact mem_rrOrder_self cur h
      have hnone :
          (((List.range (MAX_THREADS - (cur + 1) % MAX_THREADS)).map
              (fun k => (cur + 1) % MAX_THREADS + k))
            ++ ((List.range ((cur + 1) % MAX_THREADS)).map (fun k => 0 + k))).find?
            (fun j => decide ((th j).state = TState.runnable)) = none := by
        rw [List.find?_append, h1, h2]
        rfl
      have hnr : ¬ (th cur).state = TState.runnable := by
        simpa using List.find?_eq_none.mp hnone cur hcur
      rw [if_neg hnr]

/-- C2: for every thread-table state (with `current` a valid slot),
`schedule()` selects by strict round-robin: the scan starts at the slot just
after `current` modulo `MAX_THREADS`, visits every slot once, and the first
RUNNABLE slot wins — `current` itself is the last slot examined, so it
continues exactly when no other slot is RUNNABLE but it is; the selected
slot becomes `current`; and if no slot at all is RUNNABLE, `thread_schedule`
returns with the runtime state unchanged. -/
theorem schedule_round_robin (s : RTState) (h : s.current < MAX_THREADS) :
    find_runnable_thread s.threads s.current
        = firstRunnableIn s.threads (rrOrder s.current) ∧
    (∀ nxt, find_runnable_thread s.threads s.current = some nxt →
        (thread_schedule s).current = nxt) ∧
    (find_runnable_thread s.threads s.current = none → thread_schedule s = s) := by
  refine ⟨find_runnable_eq_rr s.threads s.current h, ?_, ?_⟩
  · intro nxt hx
    simp [thread_schedule, hx]
  · intro hx
    simp [thread_schedule, hx]

theorem schedule_round_robin_witness :
    find_runnable_thread thread_init.threads thread_init.current
        = firstRunnableIn thread_init.threads (rrOrder thread_init.current) ∧
    (thread_schedule
        { threads := fun i =>
            if i = 1 then { tid := 1, state := TState.runnable, joined_tid := -1 }
            else thread_init.threads i,
          current := 0, next_tid := 2 }).current = 1 :=
  ⟨(schedule_round_robin thread_init (by decide)).1,
   (schedule_round_robin
      { threads := fun i =>
          if i = 1 then { tid := 1, state := TState.runnable, joined_tid := -1 }
          else thread_init.threads i,
        current := 0, next_tid := 2 } (by decide)).2.1 1 (by decide)⟩

/-- C3 (amended): entering the scheduler from a state in which every RUNNING
slot is `current` (which every suspension point establishes — the caller
either stayed RUNNING or demoted itself, and wakes only ever produce
RUNNABLE), a `thread_schedule` that finds a runnable slot leaves exactly one
RUNNING TCB, the new `current`; a `thread_schedule` that finds none returns
with the state unchanged — so if the caller had blocked itself beforehand,
no TCB is RUNNING at that suspension point. -/
theorem running_invariant_schedule (s : RTState)
    (hpre : ∀ i < MAX_THREADS, (s.threads i).state = TState.running → i = s.current) :
    (∀ nxt, find_runnable_thread s.threads s.current = some nxt →
        ((thread_schedule s).threads (thread_schedule s).current).state
            = TState.running ∧
        (thread_schedule s).current = nxt ∧
        ∀ i < MAX_THREADS, i ≠ nxt →
          ((thread_schedule s).threads i).state ≠ TState.running) ∧
    (find_runnable_thread s.threads s.current = none → thread_schedule s = s) := by
  constructor
  · intro nxt hfind
    simp only [thread_schedule, hfind]
    refine ⟨by simp [setState], by trivial, ?_⟩
    intro i hi hne
    simp only [setState, if_neg hne]
    by_cases hr : (s.threads s.current).state = TState.running
    · rw [if_pos hr]
      by_cases hic : i = s.current
      · subst hic
        simp [setState]
      · simp only [setState, if_neg hic]
        intro hrun
        exact hic (hpre i hi hrun)
    · rw [if_neg hr]
      by_cases hic : i = s.current
      · subst hic
        exact hr
      · intro hrun
        exact hic (hpre i hi hrun)
  · intro hfind
    simp [thread_schedule, hfind]

/-- C3 counterexample: after `thread_init`, the bootstrap thread takes a
mutex and then recursively locks it; the second `mutex_lock` iteration
blocks the only thread and calls `thread_schedule`, which finds nothing
RUNNABLE and returns without switching — at that suspension point no TCB at
all is RUNNING, so "exactly one TCB has state RUNNING" fails. -/
theorem running_invariant_deadlock_cex :
    runningCount (mutex_lock_step (mutex_lock_step mutex_init thread_init).1
        (mutex_lock_step mutex_init thread_init).2).2.threads = 0 ∧
    ((mutex_lock_step (mutex_lock_step mutex_init thread_init).1
        (mutex_lock_step mutex_init thread_init).2).2.threads
      (mutex_lock_step (mutex_lock_step mutex_init thread_init).1
        (mutex_lock_step mutex_init thread_init).2).2.current).state
      ≠ TState.running := by
  decide

theorem running_invariant_schedule_witness :
    ((thread_schedule
        { threads := fun i =>
            if i = 1 then { tid := 1, state := TState.runnable, joined_tid := -1 }
            else thread_init.threads i,
          current := 0, next_tid := 2 }).threads
      (thread_schedule
        { threads := fun i =>
            if i = 1 then { tid := 1, state := TState.runnable, joined_tid := -1 }
            else thread_init.threads i,
          current := 0, next_tid := 2 }).current).state = TState.running ∧
    thread_schedule thread_init = thread_init :=
  ⟨((running_invariant_schedule
      { threads := fun i =>
          if i = 1 then { tid := 1, state := TState.runnable, joined_tid := -1 }
          else thread_init.threads i,
        current := 0, next_tid := 2 } (by decide)).1 1 (by decide)).1,
   (running_invariant_schedule thread_init (by decide)).2 (by decide)⟩

/-- C4 (amended): the mutex predicate — `locked ⇔ owner_tid ≥ 0` and no
queued tid equals `owner_tid` — holds after `mutex_init`, is preserved by
every `mutex_unlock`, and is preserved by every `mutex_lock` iteration whose
caller (a thread with a nonnegative tid, not already enqueued) does not
already own the mutex.  The hypotheses on the caller are exactly what holds
of any thread actually reaching `mutex_lock`'s loop test in the runtime. -/
theorem mutex_inv_preserved :
    mutexInv mutex_init ∧
    (∀ (m : Mutex) (tid : Int), mutexInv m → 0 ≤ tid → tid ≠ m.owner_tid →
        tid ∉ m.wait_queue → mutexInv (mutex_lock_try m tid)) ∧
    (∀ (m : Mutex) (tid : Int) (th : Nat → TCB), mutexInv m →
        (∀ t ∈ m.wait_queue, 0 ≤ t) → mutexInv (mutex_unlock m tid th).1) := by
  refine ⟨by decide, ?_, ?_⟩
  · intro m tid hinv hnn hneq hnotin
    unfold mutex_lock_try
    by_cases hl : m.locked
    · rw [if_pos hl]
      refine ⟨hinv.1, ?_⟩
      intro t ht
      rcases List.mem_append.mp ht with hmem | hmem
      · exact hinv.2 t hmem
      · have : t = tid := by simpa using hmem
        subst this
        exact hneq
    · rw [if_neg hl]
      constructor
      · simpa using hnn
      · intro t ht heq
        subst heq
        exact hnotin ht
  · intro m tid th hinv hq
    unfold mutex_unlock
    by_cases ho : m.owner_tid ≠ tid
    · rw [if_pos ho]
      exact hinv
    · rw [if_neg ho]
      rcases hq2 : m.wait_queue with _ | ⟨w, rest⟩
      · exact ⟨(by decide : (false = true ↔ 0 ≤ (-1 : Int))), by simp⟩
      · refine ⟨(by decide : (false = true ↔ 0 ≤ (-1 : Int))), ?_⟩
        intro t ht
        have h0t : 0 ≤ t := hq t (by rw [hq2]; exact List.mem_cons_of_mem _ ht)
        show t ≠ (-1 : Int)
        omega

/-- C4 counterexample: from `mutex_init`, the bootstrap thread (tid 0)
acquires the mutex — the predicate still holds — and then performs one more
`mutex_lock` iteration on the mutex it already owns (the recursive-lock
deadlock of spec §4.4): the iteration enqueues tid 0, the owner itself, into
the wait queue, falsifying "no tid in the wait queue equals owner_tid". -/
theorem mutex_inv_recursive_lock_cex :
    mutexInv (mutex_lock_try mutex_init 0) ∧
    ¬ mutexInv (mutex_lock_try (mutex_lock_try mutex_init 0) 0) := by
  decide

theorem mutex_inv_preserved_witness :
    mutexInv (mutex_lock_try mutex_init 1) ∧
    mutexInv (mutex_unlock { locked := true, owner_tid := 1, wait_queue := [2, 3] } 1
        thread_init.threads).1 :=
  ⟨mutex_inv_preserved.2.1 mutex_init 1 (by decide) (by decide) (by decide) (by decide),
   mutex_inv_preserved.2.2 { locked := true, owner_tid := 1, wait_queue := [2, 3] } 1
     thread_init.threads (by decide) (by decide)⟩

/-- C5: the semaphore invariant — the number of queued tids equals
`max(0, -count)` — holds after `sem_init` with a nonnegative initial value
and is preserved both by the atomic entry segment of `sem_wait` (decrement,
then enqueue exactly when the result went negative; the post-wake half of
`sem_wait` only breaks out of the loop and touches no semaphore field) and
by `sem_post` (increment, then dequeue one tid if any is queued).  Since
these segments are the only code mutating a semaphore, the equality holds at
every suspension point under any interleaving, even though `sem_wait` never
re-tests `count` after waking. -/
theorem sem_inv_preserved :
    (∀ v : Int, 0 ≤ v → semInv (sem_init v)) ∧
    (∀ (s : Sem) (tid : Int), semInv s → semInv (sem_wait_entry s tid)) ∧
    (∀ (s : Sem) (th : Nat → TCB), semInv s → semInv (sem_post s th).1) := by
  refine ⟨?_, ?_, ?_⟩
  · intro v hv
    simp only [semInv, sem_init, List.length_nil]
    omega
  · intro s tid hinv
    simp only [semInv] at hinv
    simp only [sem_wait_entry]
    by_cases hc : s.count - 1 < 0
    · rw [if_pos hc]
      simp only [semInv, List.length_append, List.length_cons, List.length_nil]
      push_cast
      omega
    · rw [if_neg hc]
      simp only [semInv]
      omega
  · intro s th hinv
    simp only [semInv] at hinv
    rcases hq : s.wait_queue with _ | ⟨w, rest⟩
    · simp only [sem_post, hq]
      simp only [semInv, List.length_nil]
      rw [hq] at hinv
      simp only [List.length_nil] at hinv
      omega
    · simp only [sem_post, hq]
      simp only [semInv]
      rw [hq] at hinv
      simp only [List.length_cons] at hinv
      push_cast at hinv ⊢
      omega

theorem sem_inv_preserved_witness :
    semInv (sem_init 2) ∧
    semInv (sem_wait_entry { count := -1, wait_queue := [7] } 8) ∧
    semInv (sem_post { count := -2, wait_queue := [7, 8] } thread_init.threads).1 :=
  ⟨sem_inv_preserved.1 2 (by decide),
   sem_inv_preserved.2.1 { count := -1, wait_queue := [7] } 8 (by decide),
   sem_inv_preserved.2.2 { count := -2, wait_queue := [7, 8] } thread_init.threads
     (by decide)⟩

/-- Peeling one successful receive off a non-empty buffer: the buffered items
are the head at `read_pos` followed by the items of the advanced channel. -/
theorem chanItems_cons (ch : Channel) (hrp : ch.read_pos < ch.capacity)
    (hne : ch.count ≠ 0) :
    chanItems ch
      = ch.buffer ch.read_pos ::
          chanItems { ch with read_pos := (ch.read_pos + 1) % ch.capacity,
                              count := ch.count - 1 } := by
  rcases Nat.exists_eq_succ_of_ne_zero hne with ⟨n, hn⟩
  unfold chanItems
  simp only [hn, Nat.succ_sub_one]
  rw [List.range_succ_eq_map, List.map_cons, List.map_map]
  congr 1
  · rw [Nat.add_zero, Nat.mod_eq_of_lt hrp]
  · congr 1
    funext k
    simp only [Function.comp_apply]
    rw [Nat.mod_add_mod]
    congr 2
    omega

/-- Draining a closed channel whose count is `n` delivers exactly the
buffered items and ends on a closed, empty channel. -/
theorem drainRecv_closed :
    ∀ (n : Nat) (ch : Channel), ch.closed = true →
      ch.count = n → ch.count ≤ ch.capacity → ch.read_pos < ch.capacity →
      (drainRecv n ch).1 = chanItems ch ∧
      (drainRecv n ch).2.closed = true ∧
      (drainRecv n ch).2.count = 0 := by
  intro n
  induction n with
  | zero =>
    intro ch hcl hn _ _
    refine ⟨?_, hcl, hn⟩
    simp [drainRecv, chanItems, hn]
  | succ n ih =>
    intro ch hcl hn hle hrp
    have hne : ¬ ch.count = 0 := by omega
    have hrec : channel_recv ch
        = some (0, some (ch.buffer ch.read_pos),
            { ch with read_pos := (ch.read_pos + 1) % ch.capacity,
                      count := ch.count - 1 }) := by
      simp [channel_recv, hne]
    have hcap0 : 0 < ch.capacity := by omega
    obtain ⟨e1, e2, e3⟩ :=
      ih { ch with read_pos := (ch.read_pos + 1) % ch.capacity,
                   count := ch.count - 1 }
        hcl (by simp [hn]) (by simp; omega) (by simpa using Nat.mod_lt _ hcap0)
    refine ⟨?_, ?_, ?_⟩
    · simp only [drainRecv, hrec]
      rw [e1, chanItems_cons ch hrp hne]
    · simp only [drainRecv, hrec]
      exact e2
    · simp only [drainRecv, hrec]
      exact e3

/-- C6: once `channel_close` has set `closed`, every `channel_send` returns
`-1` leaving the channel (buffer included) untouched; `channel_recv` returns
`-1` exactly when `count = 0` and otherwise still delivers; and repeatedly
receiving drains every item buffered before the close, in FIFO ring order,
after which `channel_recv` returns `-1`. -/
theorem channel_close_monotonic (ch : Channel)
    (hclosed : ch.closed = true)
    (hcount : ch.count ≤ ch.capacity)
    (hrp : ch.read_pos < ch.capacity) :
    (∀ d, channel_send ch d = some (-1, ch)) ∧
    (ch.count = 0 → channel_recv ch = some (-1, none, ch)) ∧
    (ch.count ≠ 0 → ∃ v ch2, channel_recv ch = some (0, some v, ch2)) ∧
    (drainRecv ch.count ch).1 = chanItems ch ∧
    channel_recv (drainRecv ch.count ch).2
      = some (-1, none, (drainRecv ch.count ch).2) := by
  obtain ⟨e1, e2, e3⟩ := drainRecv_closed ch.count ch hclosed rfl hcount hrp
  refine ⟨?_, ?_, ?_, e1, ?_⟩
  · intro d
    simp [channel_send, hclosed]
  · intro h0
    simp [channel_recv, h0, hclosed]
  · intro hne
    refine ⟨ch.buffer ch.read_pos,
      { ch with read_pos := (ch.read_pos + 1) % ch.capacity,
                count := ch.count - 1 }, ?_⟩
    simp [channel_recv, hne]
  · simp [channel_recv, e2, e3]

theorem channel_close_monotonic_witness :
    channel_send sampleClosedChannel 99 = some (-1, sampleClosedChannel) ∧
    (drainRecv sampleClosedChannel.count sampleClosedChannel).1
      = chanItems sampleClosedChannel :=
  ⟨(channel_close_monotonic sampleClosedChannel rfl (by decide) (by decide)).1 99,
   (channel_close_monotonic sampleClosedChannel rfl (by decide)
      (by decide)).2.2.2.1⟩

/-- The wake loop never changes any slot's `tid`. -/
theorem wakeTid_preserves_tid (th : Nat → TCB) (t : Int) (j : Nat) :
    ((wakeTid th t) j).tid = (th j).tid := by
  unfold wakeTid
  cases findSlotWithTid th t with
  | none => rfl
  | some i =>
    simp only [setState]
    by_cases hji : j = i <;> simp [hji]

/-- Consequently the tid-to-slot lookup is unaffected by a wake. -/
theorem findSlotWithTid_wakeTid (th : Nat → TCB) (t u : Int) :
    findSlotWithTid (wakeTid th t) u = findSlotWithTid th u := by
  unfold findSlotWithTid
  congr 1
  funext i
  rw [wakeTid_preserves_tid]

/-- A wake never demotes: a slot that is RUNNABLE stays RUNNABLE. -/
theorem wakeTid_keeps_runnable (th : Nat → TCB) (t : Int) (j : Nat)
    (h : (th j).state = TState.runnable) :
    ((wakeTid th t) j).state = TState.runnable := by
  unfold wakeTid
  cases findSlotWithTid th t with
  | none => exact h
  | some i =>
    simp only [setState]
    by_cases hji : j = i <;> simp [hji, h]

/-- A wake of tid `t` marks the first slot carrying `t` RUNNABLE. -/
theorem wakeTid_sets_runnable (th : Nat → TCB) (t : Int) (i : Nat)
    (h : findSlotWithTid th t = some i) :
    ((wakeTid th t) i).state = TState.runnable := by
  simp [wakeTid, h, setState]

/-- The broadcast loop never demotes a RUNNABLE slot. -/
theorem broadcastLoop_keeps_runnable :
    ∀ (q : List Int) (th : Nat → TCB) (j : Nat),
      (th j).state = TState.runnable →
      ((broadcastLoop th q) j).state = TState.runnable := by
  intro q
  induction q with
  | nil => intro th j h; exact h
  | cons w rest ih =>
    intro th j h
    exact ih (wakeTid th w) j (wakeTid_keeps_runnable th w j h)

/-- Every tid of the queue whose lookup succeeds ends RUNNABLE after the
broadcast loop. -/
theorem broadcastLoop_wakes :
    ∀ (q : List Int) (th : Nat → TCB) (t : Int), t ∈ q →
      ∀ i, findSlotWithTid th t = some i →
        ((broadcastLoop th q) i).state = TState.runnable := by
  intro q
  induction q with
  | nil => intro th t ht; cases ht
  | cons w rest ih =>
    intro th t ht i hfind
    rcases List.mem_cons.mp ht with hw | hmem
    · subst hw
      exact broadcastLoop_keeps_runnable rest (wakeTid th t) i
        (wakeTid_sets_runnable th t i hfind)
    · exact ih (wakeTid th w) t hmem i
        ((findSlotWithTid_wakeTid th w t) ▸ hfind)

/-- `cond_broadcast` is the FIFO iteration of `cond_signal`: draining the
queue head-first coincides with applying `cond_signal` once per queued tid. -/
theorem cond_broadcast_eq_signalIter :
    ∀ (q : List Int) (th : Nat → TCB),
      (({ wait_queue := [] } : Cond), broadcastLoop th q)
        = signalIter q.length ({ wait_queue := q }, th) := by
  intro q
  induction q with
  | nil => intro th; rfl
  | cons w rest ih =>
    intro th
    simp only [List.length_cons, signalIter, cond_signal, broadcastLoop]
    exact ih (wakeTid th w)

/-- C8: `cond_broadcast` empties the wait queue, processes the queued tids
in FIFO (enqueue) order — it coincides with iterating `cond_signal`, which
wakes the head, once per waiter — and marks the thread corresponding to each
queued tid (the first table slot carrying it, when one exists) RUNNABLE. -/
theorem cond_broadcast_drains_fifo (c : Cond) (th : Nat → TCB) :
    (cond_broadcast c th).1.wait_queue = [] ∧
    cond_broadcast c th = signalIter c.wait_queue.length (c, th) ∧
    (∀ t ∈ c.wait_queue, ∀ i, findSlotWithTid th t = some i →
        ((cond_broadcast c th).2 i).state = TState.runnable) := by
  obtain ⟨q⟩ := c
  refine ⟨rfl, cond_broadcast_eq_signalIter q th, ?_⟩
  intro t ht i hfind
  exact broadcastLoop_wakes q th t ht i hfind

theorem cond_broadcast_drains_fifo_witness :
    ((cond_broadcast { wait_queue := [1, 2] }
        (fun i =>
          if i = 1 then { tid := 1, state := TState.sleeping, joined_tid := -1 }
          else if i = 2 then { tid := 2, state := TState.sleeping, joined_tid := -1 }
          else thread_init.threads i)).2 1).state = TState.runnable ∧
    ((cond_broadcast { wait_queue := [1, 2] }
        (fun i =>
          if i = 1 then { tid := 1, state := TState.sleeping, joined_tid := -1 }
          else if i = 2 then { tid := 2, state := TState.sleeping, joined_tid := -1 }
          else thread_init.threads i)).2 2).state = TState.runnable :=
  ⟨(cond_broadcast_drains_fifo { wait_queue := [1, 2] } _).2.2 1 (by decide) 1
      (by decide),
   (cond_broadcast_drains_fifo { wait_queue := [1, 2] } _).2.2 2 (by decide) 2
      (by decide)⟩

/-- C9: whenever slot 0 still carries the bootstrap TCB (tid 0, state
neither UNUSED nor ZOMBIE — it starts RUNNING and is never reaped while
alive), `thread_join(0)` called by the current thread does not take the
not-found path that returns null: the lookup finds slot 0, so the caller
records `joined_tid = 0`, blocks (`T_SLEEPING`) and enters the scheduler
inside the waiting loop — despite the bootstrap thread being documented as
not joinable. -/
theorem join_bootstrap_blocks (s : RTState)
    (h0tid : (s.threads 0).tid = 0)
    (h0st : (s.threads 0).state ≠ TState.unused)
    (h0nz : (s.threads 0).state ≠ TState.zombie) :
    joinLookup s.threads 0 = some 0 ∧
    thread_join_entry s 0
      = some (thread_schedule { s with threads := joinBlockedTable s 0 }) ∧
    (joinBlockedTable s 0 s.current).joined_tid = 0 ∧
    (joinBlockedTable s 0 s.current).state = TState.sleeping := by
  have hlook : joinLookup s.threads 0 = some 0 := by
    unfold joinLookup
    have h16 : MAX_THREADS = 15 + 1 := rfl
    rw [h16, List.range_succ_eq_map]
    rw [List.find?_cons_of_pos _ (by simp [h0tid, h0st])]
  refine ⟨hlook, ?_, ?_, ?_⟩
  · unfold thread_join_entry
    rw [hlook]
    simp only []
    rw [if_neg h0nz]
  · simp [joinBlockedTable, setState, setJoined]
  · simp [joinBlockedTable, setState]

theorem join_bootstrap_blocks_witness :
    joinLookup
        { threads := fun i =>
            if i = 1 then { tid := 1, state := TState.running, joined_tid := -1 }
            else thread_init.threads i,
          current := 1, next_tid := 2 : RTState }.threads 0 = some 0 ∧
    (joinBlockedTable
        { threads := fun i =>
            if i = 1 then { tid := 1, state := TState.running, joined_tid := -1 }
            else thread_init.threads i,
          current := 1, next_tid := 2 : RTState } 0 1).state = TState.sleeping :=
  ⟨(join_bootstrap_blocks _ (by decide) (by decide) (by decide)).1,
   (join_bootstrap_blocks
      { threads := fun i =>
          if i = 1 then { tid := 1, state := TState.running, joined_tid := -1 }
          else thread_init.threads i,
        current := 1, next_tid := 2 } (by decide) (by decide) (by decide)).2.2.2⟩

/-- C10: the dequeue-and-wake loop shared by `mutex_unlock`, `sem_post`,
`cond_signal` and `cond_broadcast` sets the first table slot whose tid
matches to RUNNABLE unconditionally — it never inspects the slot's state, so
a TERMINATED (zombie) slot that has not been reaped is woken too — every
other slot is untouched, and the wake is skipped exactly when no slot at all
carries the tid (as after a reap, which resets the slot's tid to 0). -/
theorem wake_unconditional (th : Nat → TCB) (t : Int) :
    (∀ i, findSlotWithTid th t = some i →
        ((wakeTid th t) i).state = TState.runnable ∧
        ((wakeTid th t) i).tid = (th i).tid ∧
        ∀ j, j ≠ i → (wakeTid th t) j = th j) ∧
    (findSlotWithTid th t = none → wakeTid th t = th) ∧
    (findSlotWithTid th t = none ↔ ∀ i < MAX_THREADS, (th i).tid ≠ t) := by
  refine ⟨?_, ?_, ?_⟩
  · intro i hfind
    refine ⟨wakeTid_sets_runnable th t i hfind, wakeTid_preserves_tid th t i, ?_⟩
    intro j hj
    simp [wakeTid, hfind, setState, hj]
  · intro hfind
    simp [wakeTid, hfind]
  · unfold findSlotWithTid
    rw [List.find?_eq_none]
    constructor
    · intro h i hi
      simpa using h i (List.mem_range.mpr hi)
    · intro h x hx
      simpa using h x (List.mem_range.mp hx)

theorem wake_unconditional_witness :
    ((wakeTid
        (fun i =>
          if i = 2 then { tid := 5, state := TState.zombie, joined_tid := -1 }
          else thread_init.threads i) 5) 2).state = TState.runnable ∧
    wakeTid
        (fun i =>
          if i = 2 then { tid := 5, state := TState.zombie, joined_tid := -1 }
          else thread_init.threads i) 9
      = (fun i =>
          if i = 2 then { tid := 5, state := TState.zombie, joined_tid := -1 }
          else thread_init.threads i) :=
  ⟨((wake_unconditional _ 5).1 2 (by decide)).1,
   (wake_unconditional _ 9).2.1 (by decide)⟩
